import Mathlib

/-!
Verification development for the insight-vault knowledge-base application.

The definitions below are a shallow embedding of the application's data
model and of the operations its claims concern:

* the row-level authorization policies from the SQL migrations
  (content-table insert/update/delete checks built on the
  `is_approved` and `has_role` SQL functions);
* the `reset-password` edge function (validation, profile lookup,
  code lookup, privileged credential update, mark-used update), both
  as a sequential function and as an interleavable step program;
* the `ai-search` edge function (empty-table early return, upstream
  status classification, the brace-substring extraction and JSON
  parsing of the model reply, and reference resolution);
* the registration / approval handlers from the Auth and Admin pages.

UUID values are abstracted as natural numbers where only identity
matters (users, profiles, code rows) and as strings where the code
compares them against strings extracted from JSON (content rows).
-/

namespace InsightVault

/-- The tri-state approval status of `public.profiles.status`
(`CHECK (status IN ('pending','approved','rejected'))`). -/
inductive ProfileStatus where
  | pending
  | approved
  | rejected
deriving DecidableEq, Repr

/-- The `public.app_role` enum (`'admin'`, `'user'`). -/
inductive AppRole where
  | admin
  | user
deriving DecidableEq, Repr

/-- A row of `public.profiles`. -/
structure Profile where
  id : Nat
  user_id : Nat
  email : String
  display_name : String
  status : ProfileStatus
deriving DecidableEq, Repr

/-- A row of `public.user_roles` (`UNIQUE (user_id, role)`). -/
structure RoleRow where
  user_id : Nat
  role : AppRole
deriving DecidableEq, Repr

/-- A row of one of the three content tables (`solutions`,
`installation_guides`, `upgrades`): title, description, optional steps
(absent on solutions), optional image, nullable owner. Content ids are
strings because the ai-search function compares them against strings
taken from the model's JSON reply. -/
structure ContentRow where
  id : String
  title : String
  description : String
  steps : Option String
  image_url : Option String
  user_id : Option Nat
deriving DecidableEq, Repr

/-- A row of `public.login_codes`. -/
structure LoginCode where
  id : Nat
  user_id : Nat
  code : String
  used : Bool
deriving DecidableEq, Repr

/-- The three content tables, which carry identical row-level policies. -/
inductive ContentTable where
  | solutions
  | installation_guides
  | upgrades
deriving DecidableEq, Repr

/-- The database state visible to the claims. -/
structure Db where
  profiles : List Profile
  user_roles : List RoleRow
  solutions : List ContentRow
  installation_guides : List ContentRow
  upgrades : List ContentRow
  login_codes : List LoginCode
deriving DecidableEq, Repr

/-- `public.has_role(_user_id, _role)`: `EXISTS (SELECT 1 FROM
user_roles WHERE user_id = _user_id AND role = _role)`. The caller may
be anonymous (`auth.uid()` is NULL), in which case the SQL equality is
never true. -/
def has_role (db : Db) (uid : Option Nat) (r : AppRole) : Bool :=
  db.user_roles.any fun rr => some rr.user_id == uid && rr.role == r

/-- `public.is_approved(_user_id)`: `EXISTS (SELECT 1 FROM profiles
WHERE user_id = _user_id AND status = 'approved')`. -/
def is_approved (db : Db) (uid : Option Nat) : Bool :=
  db.profiles.any fun p => some p.user_id == uid && p.status == .approved

/-- The INSERT `WITH CHECK` clause shared by the three content tables:
`is_approved(auth.uid()) OR has_role(auth.uid(), 'admin')`. -/
def contentInsertCheck (db : Db) (uid : Option Nat) : Bool :=
  is_approved db uid || has_role db uid .admin

/-- The UPDATE/DELETE `USING` clause shared by the three content
tables: `user_id = auth.uid() OR has_role(auth.uid(), 'admin')`. A
NULL row owner or a NULL caller makes the SQL equality not true. -/
def contentModifyCheck (db : Db) (uid : Option Nat) (row : ContentRow) : Bool :=
  (row.user_id.isSome && row.user_id == uid) || has_role db uid .admin

/-- Read a content table from the database state. -/
def Db.table (db : Db) : ContentTable → List ContentRow
  | .solutions => db.solutions
  | .installation_guides => db.installation_guides
  | .upgrades => db.upgrades

/-- Replace a content table in the database state. -/
def Db.setTable (db : Db) : ContentTable → List ContentRow → Db
  | .solutions, rows => { db with solutions := rows }
  | .installation_guides, rows => { db with installation_guides := rows }
  | .upgrades, rows => { db with upgrades := rows }

/-- Authorization failure of a row-level policy check, surfaced to the
client as a generic "not allowed" error. -/
inductive DbError where
  | authorizationDenied
deriving DecidableEq, Repr

/-- Insert into a content table under the row-level policy: the row is
appended iff the `WITH CHECK` clause holds for the caller, otherwise
the statement is rejected. -/
def insertContent (db : Db) (uid : Option Nat) (tbl : ContentTable)
    (row : ContentRow) : Except DbError Db :=
  if contentInsertCheck db uid then
    .ok (db.setTable tbl (db.table tbl ++ [row]))
  else
    .error .authorizationDenied

/-- Update a content row by id under the row-level policy: the `USING`
clause is evaluated on the addressed row; an unauthorized caller's
statement is rejected, an authorized caller's update rewrites the
row's mutable fields. A statement addressing no row is a no-op. -/
def updateContent (db : Db) (uid : Option Nat) (tbl : ContentTable)
    (rid : String) (newRow : ContentRow) : Except DbError Db :=
  match (db.table tbl).find? (fun r => r.id == rid) with
  | none => .ok db
  | some row =>
    if contentModifyCheck db uid row then
      .ok (db.setTable tbl ((db.table tbl).map fun r =>
        if r.id == rid then newRow else r))
    else
      .error .authorizationDenied

/-- Delete a content row by id under the row-level policy, mirroring
`updateContent` with the same `USING` clause. -/
def deleteContent (db : Db) (uid : Option Nat) (tbl : ContentTable)
    (rid : String) : Except DbError Db :=
  match (db.table tbl).find? (fun r => r.id == rid) with
  | none => .ok db
  | some row =>
    if contentModifyCheck db uid row then
      .ok (db.setTable tbl ((db.table tbl).filter fun r => !(r.id == rid)))
    else
      .error .authorizationDenied

/-- A concrete database with one pending, non-admin user (user 10). -/
def dbPending : Db :=
  { profiles := [⟨1, 10, "u@x.test", "u", .pending⟩]
    user_roles := [⟨10, .user⟩]
    solutions := []
    installation_guides := []
    upgrades := []
    login_codes := [] }

/-- A concrete database with one approved user (user 10) owning
solution "s1", and one admin (user 99). -/
def dbApproved : Db :=
  { profiles := [⟨1, 10, "u@x.test", "u", .approved⟩]
    user_roles := [⟨10, .user⟩, ⟨99, .admin⟩]
    solutions := [⟨"s1", "t", "d", none, none, some 10⟩]
    installation_guides := []
    upgrades := []
    login_codes := [] }

/-- A sample content row. -/
def sampleRow : ContentRow := ⟨"s2", "t2", "d2", none, none, some 10⟩

/-- **C1.** An identity none of whose profile rows is `approved` and
which holds no admin role has its insert into any content table
rejected by the shared `WITH CHECK` clause with an authorization
denial; an identity with an approved profile, or an admin, has the
insert accepted (the row is appended to the addressed table). -/
theorem insert_requires_approved_or_admin (db : Db) (uid : Nat)
    (tbl : ContentTable) (row : ContentRow) :
    ((∀ p ∈ db.profiles, p.user_id = uid → p.status ≠ .approved) →
      has_role db (some uid) .admin = false →
      insertContent db (some uid) tbl row = .error .authorizationDenied)
    ∧ (is_approved db (some uid) = true ∨ has_role db (some uid) .admin = true →
      insertContent db (some uid) tbl row =
        .ok (db.setTable tbl (db.table tbl ++ [row]))) := by
  constructor
  · intro hnp hadm
    have happ : is_approved db (some uid) = false := by
      simp only [is_approved, List.any_eq_false]
      intro p hp
      simp only [Bool.and_eq_true, beq_iff_eq, Option.some_inj, not_and]
      intro he
      exact fun hs => hnp p hp he hs
    simp [insertContent, contentInsertCheck, happ, hadm]
  · intro h
    have hc : contentInsertCheck db (some uid) = true := by
      rcases h with h | h <;> simp [contentInsertCheck, h]
    simp [insertContent, hc]

/-- Witness for `insert_requires_approved_or_admin`: the pending user
10 is denied, the approved user 10 succeeds on `dbApproved`. -/
theorem insert_requires_approved_or_admin_witness :
    insertContent dbPending (some 10) .solutions sampleRow =
      .error .authorizationDenied ∧
    insertContent dbApproved (some 10) .solutions sampleRow =
      .ok (dbApproved.setTable .solutions (dbApproved.table .solutions ++ [sampleRow])) :=
  ⟨(insert_requires_approved_or_admin dbPending 10 .solutions sampleRow).1
      (by decide) (by decide),
   (insert_requires_approved_or_admin dbApproved 10 .solutions sampleRow).2
      (Or.inl (by decide))⟩

/-- **C2.** For a content row addressed by id, an update or delete by
a caller that is neither the row's owner nor an admin is rejected by
the shared `USING` clause with an authorization denial; the owner or
an admin succeeds. -/
theorem modify_requires_owner_or_admin (db : Db) (uid : Nat)
    (tbl : ContentTable) (rid : String) (row newRow : ContentRow)
    (hfind : (db.table tbl).find? (fun r => r.id == rid) = some row) :
    ((row.user_id ≠ some uid → has_role db (some uid) .admin = false →
      updateContent db (some uid) tbl rid newRow = .error .authorizationDenied ∧
      deleteContent db (some uid) tbl rid = .error .authorizationDenied))
    ∧ (row.user_id = some uid ∨ has_role db (some uid) .admin = true →
      (∃ db1, updateContent db (some uid) tbl rid newRow = .ok db1) ∧
      (∃ db2, deleteContent db (some uid) tbl rid = .ok db2)) := by
  constructor
  · intro hown hadm
    have hc : contentModifyCheck db (some uid) row = false := by
      simp only [contentModifyCheck, Bool.or_eq_false_iff, Bool.and_eq_false_iff]
      refine ⟨?_, hadm⟩
      cases hu : row.user_id with
      | none => exact Or.inl (by simp [hu])
      | some v =>
        refine Or.inr ?_
        simp only [hu, beq_eq_false_iff_ne, ne_eq, Option.some_inj]
        intro hv
        exact hown (by simp [hu, hv])
    constructor
    · simp [updateContent, hfind, hc]
    · simp [deleteContent, hfind, hc]
  · intro h
    have hc : contentModifyCheck db (some uid) row = true := by
      rcases h with h | h
      · simp [contentModifyCheck, h]
      · simp [contentModifyCheck, h]
    constructor
    · exact ⟨db.setTable tbl ((db.table tbl).map fun r =>
        if r.id == rid then newRow else r), by simp [updateContent, hfind, hc]⟩
    · exact ⟨db.setTable tbl ((db.table tbl).filter fun r => !(r.id == rid)),
        by simp [deleteContent, hfind, hc]⟩

/-- Witness for `modify_requires_owner_or_admin`: on `dbApproved`,
user 11 (not the owner of "s1", not admin) is denied update and
delete; owner 10 succeeds on both. -/
theorem modify_requires_owner_or_admin_witness :
    (updateContent dbApproved (some 11) .solutions "s1" sampleRow =
        .error .authorizationDenied ∧
      deleteContent dbApproved (some 11) .solutions "s1" =
        .error .authorizationDenied) ∧
    ((∃ db1, updateContent dbApproved (some 10) .solutions "s1" sampleRow = .ok db1) ∧
      (∃ db2, deleteContent dbApproved (some 10) .solutions "s1" = .ok db2)) :=
  ⟨(modify_requires_owner_or_admin dbApproved 11 .solutions "s1"
      ⟨"s1", "t", "d", none, none, some 10⟩ sampleRow (by decide)).1
      (by decide) (by decide),
   (modify_requires_owner_or_admin dbApproved 10 .solutions "s1"
      ⟨"s1", "t", "d", none, none, some 10⟩ sampleRow (by decide)).2
      (Or.inl (by decide))⟩

/-- A stored credential in the managed auth service, abstracted to the
password that `auth.admin.updateUserById` overwrites. -/
structure AuthUser where
  id : Nat
  password : String
deriving DecidableEq, Repr

/-- The JSON body of a reset-password request; a field absent from the
body is `none`. -/
structure ResetRequest where
  email : Option String
  resetCode : Option String
  newPassword : Option String
deriving DecidableEq, Repr

/-- JavaScript truthiness of an optional string field: `!email` is
true both for an absent field and for the empty string. -/
def present : Option String → Bool
  | none => false
  | some s => !(s == "")

/-- The distinct responses of the reset-password function. -/
inductive ResetResponse where
  | validationError (msg : String)
  | notFound
  | invalidCode
  | updateFailed
  | success
deriving DecidableEq, Repr

/-- HTTP status attached to each reset-password response by the
function (400 validation, 404 "Email not found", 400 "Invalid or
already used reset code", 500 "Failed to update password", 200). -/
def ResetResponse.status : ResetResponse → Nat
  | .validationError _ => 400
  | .notFound => 404
  | .invalidCode => 400
  | .updateFailed => 500
  | .success => 200

/-- `.maybeSingle()` on a filtered select: exactly one row yields the
row; zero rows yield null and two or more yield an error, and both
call sites treat the error and the null result alike, so the
embedding returns `none` for both. -/
def maybeSingle {α : Type} : List α → Option α
  | [a] => some a
  | _ => none

/-- The profile lookup
`from('profiles').select('user_id').eq('email', email).maybeSingle()`. -/
def profileLookup (db : Db) (email : String) : Option Profile :=
  maybeSingle (db.profiles.filter fun p => p.email == email)

/-- The code lookup `from('login_codes').select('*')
.eq('user_id', uid).eq('code', code).eq('used', false).maybeSingle()`. -/
def codeLookup (db : Db) (userId : Nat) (code : String) : Option LoginCode :=
  maybeSingle (db.login_codes.filter fun c =>
    c.user_id == userId && c.code == code && c.used == false)

/-- The single consuming statement
`from('login_codes').update({used: true}).eq('id', cid)`. -/
def markUsed (db : Db) (cid : Nat) : Db :=
  { db with login_codes := db.login_codes.map fun c =>
      if c.id == cid then { c with used := true } else c }

/-- `auth.admin.updateUserById(uid, {password})` on the abstracted
credential store. -/
def setPassword (auth : List AuthUser) (uid : Nat) (pwd : String) :
    List AuthUser :=
  auth.map fun u => if u.id == uid then { u with password := pwd } else u

/-- The reset-password function run to completion with no interleaved
writer. `updateOk` models whether the privileged credential update
itself succeeds (an external auth-service outcome). Returns the
response together with the resulting database and credential store. -/
def resetPassword (updateOk : Bool) (db : Db) (auth : List AuthUser)
    (req : ResetRequest) : ResetResponse × Db × List AuthUser :=
  if !(present req.email && present req.resetCode && present req.newPassword) then
    (.validationError "Email, reset code, and new password are required", db, auth)
  else if (req.newPassword.getD "").length < 6 then
    (.validationError "Password must be at least 6 characters", db, auth)
  else
    match profileLookup db (req.email.getD "") with
    | none => (.notFound, db, auth)
    | some p =>
      match codeLookup db p.user_id (req.resetCode.getD "") with
      | none => (.invalidCode, db, auth)
      | some c =>
        if updateOk then
          (.success, markUsed db c.id,
            setPassword auth p.user_id (req.newPassword.getD ""))
        else
          (.updateFailed, db, auth)

/-- Progress of one in-flight reset-password request between its
database/auth statements. -/
inductive ResetPhase where
  | start
  | gotProfile (userId : Nat)
  | gotCode (userId : Nat) (codeId : Nat)
  | passwordSet (codeId : Nat)
  | finished (resp : ResetResponse)
deriving DecidableEq, Repr

/-- One atomic statement of the reset-password function: the
validation (pure) plus profile select, the code select, the
credential update, and the mark-used update are each a single
statement against shared state; the function issues them in this
order with no transaction spanning them. -/
def stepReset (updateOk : Bool) (req : ResetRequest) (ph : ResetPhase)
    (db : Db) (auth : List AuthUser) : ResetPhase × Db × List AuthUser :=
  match ph with
  | .start =>
    if !(present req.email && present req.resetCode && present req.newPassword) then
      (.finished (.validationError "Email, reset code, and new password are required"),
        db, auth)
    else if (req.newPassword.getD "").length < 6 then
      (.finished (.validationError "Password must be at least 6 characters"), db, auth)
    else
      match profileLookup db (req.email.getD "") with
      | none => (.finished .notFound, db, auth)
      | some p => (.gotProfile p.user_id, db, auth)
  | .gotProfile u =>
    match codeLookup db u (req.resetCode.getD "") with
    | none => (.finished .invalidCode, db, auth)
    | some c => (.gotCode u c.id, db, auth)
  | .gotCode u cid =>
    if updateOk then
      (.passwordSet cid, db, setPassword auth u (req.newPassword.getD ""))
    else
      (.finished .updateFailed, db, auth)
  | .passwordSet cid => (.finished .success, markUsed db cid, auth)
  | .finished r => (.finished r, db, auth)

/-- Joint state of two concurrent reset-password requests over the
shared database and credential store. -/
structure TwoResets where
  ph1 : ResetPhase
  ph2 : ResetPhase
  db : Db
  auth : List AuthUser
deriving DecidableEq, Repr

/-- Advance one of the two requests by one atomic statement
(`true` advances the first). -/
def stepTwo (ok1 ok2 : Bool) (req1 req2 : ResetRequest) (st : TwoResets)
    (who : Bool) : TwoResets :=
  if who then
    let r := stepReset ok1 req1 st.ph1 st.db st.auth
    { st with ph1 := r.1, db := r.2.1, auth := r.2.2 }
  else
    let r := stepReset ok2 req2 st.ph2 st.db st.auth
    { st with ph2 := r.1, db := r.2.1, auth := r.2.2 }

/-- Run two concurrent reset-password requests under an interleaving
schedule. -/
def runTwo (ok1 ok2 : Bool) (req1 req2 : ResetRequest)
    (sched : List Bool) (st : TwoResets) : TwoResets :=
  sched.foldl (stepTwo ok1 ok2 req1 req2) st

/-- `maybeSingle` returns a row exactly when the filtered select
produced that row alone. -/
theorem maybeSingle_eq_some {α : Type} (l : List α) (a : α) :
    maybeSingle l = some a ↔ l = [a] := by
  cases l with
  | nil => simp [maybeSingle]
  | cons x t =>
    cases t with
    | nil => simp [maybeSingle]
    | cons y u => simp [maybeSingle]

/-- Marking the looked-up code used removes every row the code lookup
could still return: after `markUsed`, the lookup is empty. -/
theorem codeLookup_markUsed_none (db : Db) (u : Nat) (code : String)
    (c : LoginCode) (hc : codeLookup db u code = some c) :
    codeLookup (markUsed db c.id) u code = none := by
  have hfilter : db.login_codes.filter (fun x =>
      x.user_id == u && x.code == code && x.used == false) = [c] :=
    (maybeSingle_eq_some _ _).mp hc
  have hnil : (markUsed db c.id).login_codes.filter (fun x =>
      x.user_id == u && x.code == code && x.used == false) = [] := by
    rw [List.filter_eq_nil_iff]
    intro y hy
    simp only [markUsed, List.mem_map] at hy
    obtain ⟨x, hx, hxy⟩ := hy
    by_cases hid : x.id == c.id
    · subst hxy
      simp [hid]
    · subst hxy
      simp only [hid, if_neg, Bool.false_eq_true, reduceIte]
      intro hP
      have hmem : x ∈ db.login_codes.filter (fun x =>
          x.user_id == u && x.code == code && x.used == false) :=
        List.mem_filter.mpr ⟨hx, hP⟩
      rw [hfilter] at hmem
      simp only [List.mem_singleton] at hmem
      subst hmem
      simp at hid
  unfold codeLookup
  rw [hnil]
  rfl

/-- The profile lookup reads only the profiles table, which
`markUsed` leaves untouched. -/
theorem profileLookup_markUsed (db : Db) (cid : Nat) (email : String) :
    profileLookup (markUsed db cid) email = profileLookup db email := by
  simp [profileLookup, markUsed]

/-- **C10.** A reset-password request with a missing (or empty) field,
or with a new password shorter than 6 characters, gets the 400
validation response and leaves the database and the credential store
untouched, whatever their contents — no profile lookup, code lookup
or credential update can have happened. -/
theorem reset_validates_before_lookups (ok : Bool) (db : Db)
    (auth : List AuthUser) (req : ResetRequest) :
    ((present req.email = false ∨ present req.resetCode = false ∨
        present req.newPassword = false) →
      resetPassword ok db auth req =
        (.validationError "Email, reset code, and new password are required",
          db, auth))
    ∧ (present req.email = true → present req.resetCode = true →
      present req.newPassword = true →
      (req.newPassword.getD "").length < 6 →
      resetPassword ok db auth req =
        (.validationError "Password must be at least 6 characters", db, auth))
    ∧ (∀ msg, (ResetResponse.validationError msg).status = 400) := by
  refine ⟨?_, ?_, fun msg => rfl⟩
  · intro h
    rcases h with h | h | h <;> simp [resetPassword, h]
  · intro he hr hn hlen
    simp [resetPassword, he, hr, hn, hlen]

/-- Witness for `reset_validates_before_lookups`: a request with no
email, and a request with a 5-character password. -/
theorem reset_validates_before_lookups_witness :
    resetPassword true dbPending [] ⟨none, some "C", some "longpass"⟩ =
      (.validationError "Email, reset code, and new password are required",
        dbPending, []) ∧
    resetPassword true dbPending [] ⟨some "u@x.test", some "C", some "12345"⟩ =
      (.validationError "Password must be at least 6 characters", dbPending, []) :=
  ⟨(reset_validates_before_lookups true dbPending []
      ⟨none, some "C", some "longpass"⟩).1 (Or.inl (by decide)),
   (reset_validates_before_lookups true dbPending []
      ⟨some "u@x.test", some "C", some "12345"⟩).2.1
      (by decide) (by decide) (by decide) (by decide)⟩

/-- **C4.** On a well-formed request: an email matched by no unique
profile row yields the 404 not-found response; a resolved profile with
no unused matching code row yields the 400 invalid-code response; a
failing privileged credential update yields the generic 500 response.
In every case the database and the credential store are returned
unchanged. -/
theorem reset_error_responses (ok : Bool) (db : Db) (auth : List AuthUser)
    (req : ResetRequest)
    (he : present req.email = true) (hr : present req.resetCode = true)
    (hn : present req.newPassword = true)
    (hlen : ¬ (req.newPassword.getD "").length < 6) :
    (profileLookup db (req.email.getD "") = none →
      resetPassword ok db auth req = (.notFound, db, auth) ∧
      ResetResponse.notFound.status = 404)
    ∧ (∀ p, profileLookup db (req.email.getD "") = some p →
      (∀ c ∈ db.login_codes,
        ¬(c.user_id = p.user_id ∧ c.code = req.resetCode.getD "" ∧
          c.used = false)) →
      resetPassword ok db auth req = (.invalidCode, db, auth) ∧
      ResetResponse.invalidCode.status = 400)
    ∧ (∀ p c, profileLookup db (req.email.getD "") = some p →
      codeLookup db p.user_id (req.resetCode.getD "") = some c →
      resetPassword false db auth req = (.updateFailed, db, auth) ∧
      ResetResponse.updateFailed.status = 500) := by
  refine ⟨?_, ?_, ?_⟩
  · intro hp
    exact ⟨by simp [resetPassword, he, hr, hn, hlen, hp], rfl⟩
  · intro p hp hnone
    have hcl : codeLookup db p.user_id (req.resetCode.getD "") = none := by
      have hnil : db.login_codes.filter (fun c =>
          c.user_id == p.user_id && c.code == req.resetCode.getD "" &&
            c.used == false) = [] := by
        rw [List.filter_eq_nil_iff]
        intro c hc
        simp only [Bool.and_eq_true, beq_iff_eq]
        intro hP
        exact hnone c hc ⟨hP.1.1, hP.1.2, hP.2⟩
      unfold codeLookup
      rw [hnil]
      rfl
    exact ⟨by simp [resetPassword, he, hr, hn, hlen, hp, hcl], rfl⟩
  · intro p c hp hc
    exact ⟨by simp [resetPassword, he, hr, hn, hlen, hp, hc], rfl⟩

/-- A concrete database for the reset flow: one approved user (id 7)
with email "a@x.test" and one unused login code "CODE1". -/
def dbReset : Db :=
  { profiles := [⟨1, 7, "a@x.test", "a", .approved⟩]
    user_roles := []
    solutions := []
    installation_guides := []
    upgrades := []
    login_codes := [⟨0, 7, "CODE1", false⟩] }

/-- The credential store matching `dbReset`. -/
def authReset : List AuthUser := [⟨7, "oldpw"⟩]

/-- A valid reset request for `dbReset`. -/
def reqReset : ResetRequest := ⟨some "a@x.test", some "CODE1", some "newpass1"⟩

/-- Witness for `reset_error_responses` at concrete inputs: unknown
email gives 404, wrong code gives 400, failing credential update gives
500. -/
theorem reset_error_responses_witness :
    (resetPassword true dbReset authReset
        ⟨some "nobody@x.test", some "CODE1", some "newpass1"⟩ =
      (.notFound, dbReset, authReset)) ∧
    (resetPassword true dbReset authReset
        ⟨some "a@x.test", some "WRONG", some "newpass1"⟩ =
      (.invalidCode, dbReset, authReset)) ∧
    (resetPassword false dbReset authReset reqReset =
      (.updateFailed, dbReset, authReset)) :=
  ⟨((reset_error_responses true dbReset authReset
      ⟨some "nobody@x.test", some "CODE1", some "newpass1"⟩
      (by decide) (by decide) (by decide) (by decide)).1 (by decide)).1,
   ((reset_error_responses true dbReset authReset
      ⟨some "a@x.test", some "WRONG", some "newpass1"⟩
      (by decide) (by decide) (by decide) (by decide)).2.1
      ⟨1, 7, "a@x.test", "a", .approved⟩ (by decide) (by decide)).1,
   ((reset_error_responses false dbReset authReset reqReset
      (by decide) (by decide) (by decide) (by decide)).2.2
      ⟨1, 7, "a@x.test", "a", .approved⟩ ⟨0, 7, "CODE1", false⟩
      (by decide) (by decide)).1⟩

/-- **C3, counterexample.** The code check and the mark-used update
are separate statements, so two concurrent reset requests submitting
the same valid unused code can interleave between them and both
succeed: under the schedule that alternates the two requests, both
finish with the success response — refuting "for every code at most
one reset request with that code succeeds" and "a concurrent second
attempt with the same code fails". -/
theorem reset_code_concurrent_double_success :
    (runTwo true true reqReset reqReset
        [true, false, true, false, true, false, true, false]
        ⟨.start, .start, dbReset, authReset⟩).ph1 =
      .finished .success ∧
    (runTwo true true reqReset reqReset
        [true, false, true, false, true, false, true, false]
        ⟨.start, .start, dbReset, authReset⟩).ph2 =
      .finished .success := by
  constructor <;> decide

/-- **C3, amended.** Consuming a reset code is the single update
statement `markUsed`; with no interleaved concurrent request, a valid
unused matching code makes the reset succeed, sets the code's `used`
flag to true, and makes a second, sequential attempt with the same
code fail with the invalid-code response while changing nothing. -/
theorem reset_code_single_use_sequential (db : Db) (auth : List AuthUser)
    (req : ResetRequest) (p : Profile) (c : LoginCode)
    (he : present req.email = true) (hr : present req.resetCode = true)
    (hn : present req.newPassword = true)
    (hlen : ¬ (req.newPassword.getD "").length < 6)
    (hp : profileLookup db (req.email.getD "") = some p)
    (hc : codeLookup db p.user_id (req.resetCode.getD "") = some c) :
    resetPassword true db auth req =
      (.success, markUsed db c.id,
        setPassword auth p.user_id (req.newPassword.getD "")) ∧
    (∀ x ∈ (markUsed db c.id).login_codes, x.id = c.id → x.used = true) ∧
    resetPassword true (markUsed db c.id)
        (setPassword auth p.user_id (req.newPassword.getD "")) req =
      (.invalidCode, markUsed db c.id,
        setPassword auth p.user_id (req.newPassword.getD "")) := by
  refine ⟨by simp [resetPassword, he, hr, hn, hlen, hp, hc], ?_, ?_⟩
  · intro x hx hxid
    simp only [markUsed, List.mem_map] at hx
    obtain ⟨y, hy, hxy⟩ := hx
    by_cases hid : y.id == c.id
    · subst hxy; simp [hid]
    · subst hxy
      simp only [hid, Bool.false_eq_true, reduceIte] at hxid
      exact absurd (by simp [hxid]) hid
  · have hp2 : profileLookup (markUsed db c.id) (req.email.getD "") = some p := by
      rw [profileLookup_markUsed]; exact hp
    have hc2 : codeLookup (markUsed db c.id) p.user_id (req.resetCode.getD "") = none :=
      codeLookup_markUsed_none db p.user_id (req.resetCode.getD "") c hc
    simp [resetPassword, he, hr, hn, hlen, hp2, hc2]

/-- Witness for `reset_code_single_use_sequential` on `dbReset`: the
first reset succeeds and flips the flag, the sequential replay is
rejected. -/
theorem reset_code_single_use_sequential_witness :
    resetPassword true dbReset authReset reqReset =
      (.success, markUsed dbReset 0, setPassword authReset 7 "newpass1") ∧
    (∀ x ∈ (markUsed dbReset 0).login_codes, x.id = 0 → x.used = true) ∧
    resetPassword true (markUsed dbReset 0) (setPassword authReset 7 "newpass1")
        reqReset =
      (.invalidCode, markUsed dbReset 0, setPassword authReset 7 "newpass1") :=
  reset_code_single_use_sequential dbReset authReset reqReset
    ⟨1, 7, "a@x.test", "a", .approved⟩ ⟨0, 7, "CODE1", false⟩
    (by decide) (by decide) (by decide) (by decide) (by decide) (by decide)

/-- A JavaScript value as produced by `JSON.parse`. A number keeps its
validated source lexeme: no claim inspects a numeric value, only
whether parsing succeeds, and the success-path comparisons
(`relevantIds.includes(s.id)`) compare strings, for which JS strict
equality is exact string equality. -/
inductive Json where
  | null
  | bool (b : Bool)
  | num (lexeme : String)
  | str (s : String)
  | arr (elems : List Json)
  | obj (members : List (String × Json))

mutual

/-- Structural equality of JS values, matching strict equality on the
strings the claims compare. -/
def Json.beq : Json → Json → Bool
  | .null, .null => true
  | .bool a, .bool b => a == b
  | .num a, .num b => a == b
  | .str a, .str b => a == b
  | .arr xs, .arr ys => Json.beqList xs ys
  | .obj xs, .obj ys => Json.beqMembers xs ys
  | _, _ => false

/-- Elementwise `Json.beq` on arrays. -/
def Json.beqList : List Json → List Json → Bool
  | [], [] => true
  | x :: xs, y :: ys => Json.beq x y && Json.beqList xs ys
  | _, _ => false

/-- Memberwise `Json.beq` on objects. -/
def Json.beqMembers : List (String × Json) → List (String × Json) → Bool
  | [], [] => true
  | kv :: xs, kw :: ys =>
    kv.1 == kw.1 && Json.beq kv.2 kw.2 && Json.beqMembers xs ys
  | _, _ => false

end

instance : BEq Json := ⟨Json.beq⟩

/-- JSON insignificant whitespace (space, tab, line feed, carriage
return), as skipped by `JSON.parse`. -/
def isJsonWs (c : Char) : Bool :=
  c == ' ' || c == '\t' || c == '\n' || c == '\r'

/-- Drop leading JSON whitespace. -/
def skipWs (cs : List Char) : List Char :=
  cs.dropWhile isJsonWs

/-- Value of a hexadecimal digit. -/
def hexVal (c : Char) : Option Nat :=
  if '0' ≤ c ∧ c ≤ '9' then some (c.toNat - '0'.toNat)
  else if 'a' ≤ c ∧ c ≤ 'f' then some (c.toNat - 'a'.toNat + 10)
  else if 'A' ≤ c ∧ c ≤ 'F' then some (c.toNat - 'A'.toNat + 10)
  else none

/-- Parse the body of a JSON string after the opening quote: returns
the decoded characters and the input after the closing quote. Escapes
are `\" \\ \/ \b \f \n \r \t \uXXXX`; unescaped control characters are
rejected. A `\u` surrogate pair is combined into one scalar; a lone
surrogate (which Lean's `Char` cannot hold) is approximated by the
`Char.ofNat` default — no claim exercises that case. -/
def parseJsonString : Nat → List Char → Option (List Char × List Char)
  | 0, _ => none
  | _ + 1, [] => none
  | fuel + 1, c :: cs =>
    if c = '"' then some ([], cs)
    else if c = '\\' then
      match cs with
      | [] => none
      | e :: cs2 =>
        let cont := fun (ch : Char) (rest : List Char) =>
          match parseJsonString fuel rest with
          | some (out, rem) => some (ch :: out, rem)
          | none => none
        if e = '"' then cont '"' cs2
        else if e = '\\' then cont '\\' cs2
        else if e = '/' then cont '/' cs2
        else if e = 'b' then cont (Char.ofNat 8) cs2
        else if e = 'f' then cont (Char.ofNat 12) cs2
        else if e = 'n' then cont '\n' cs2
        else if e = 'r' then cont '\r' cs2
        else if e = 't' then cont '\t' cs2
        else if e = 'u' then
          match cs2 with
          | a :: b :: c2 :: d :: cs3 =>
            match hexVal a, hexVal b, hexVal c2, hexVal d with
            | some ha, some hb, some hc2, some hd =>
              let code := ((ha * 16 + hb) * 16 + hc2) * 16 + hd
              if 0xD800 ≤ code ∧ code ≤ 0xDBFF then
                match cs3 with
                | '\\' :: 'u' :: a2 :: b2 :: c3 :: d2 :: cs4 =>
                  match hexVal a2, hexVal b2, hexVal c3, hexVal d2 with
                  | some ha2, some hb2, some hc3, some hd2 =>
                    let low := ((ha2 * 16 + hb2) * 16 + hc3) * 16 + hd2
                    if 0xDC00 ≤ low ∧ low ≤ 0xDFFF then
                      cont (Char.ofNat
                        (0x10000 + (code - 0xD800) * 0x400 + (low - 0xDC00))) cs4
                    else cont (Char.ofNat code) cs3
                  | _, _, _, _ => cont (Char.ofNat code) cs3
                | _ => cont (Char.ofNat code) cs3
              else cont (Char.ofNat code) cs3
            | _, _, _, _ => none
          | _ => none
        else none
    else if c.toNat < 0x20 then none
    else
      match parseJsonString fuel cs with
      | some (out, rem) => some (c :: out, rem)
      | none => none

/-- Take a maximal run of decimal digits. -/
def takeDigits : List Char → List Char × List Char
  | [] => ([], [])
  | c :: cs =>
    if '0' ≤ c ∧ c ≤ '9' then
      let r := takeDigits cs
      (c :: r.1, r.2)
    else ([], c :: cs)

/-- Parse the optional fraction part `.digits` of a JSON number. -/
def parseFrac : List Char → Option (List Char × List Char)
  | '.' :: t =>
    match takeDigits t with
    | ([], _) => none
    | (ds, t2) => some ('.' :: ds, t2)
  | cs => some ([], cs)

/-- Parse the optional exponent part `[eE][+-]?digits` of a JSON
number. -/
def parseExp : List Char → Option (List Char × List Char)
  | [] => some ([], [])
  | e :: t =>
    if e = 'e' ∨ e = 'E' then
      let signed : List Char × List Char :=
        match t with
        | '+' :: u => (['+'], u)
        | '-' :: u => (['-'], u)
        | u => ([], u)
      match takeDigits signed.2 with
      | ([], _) => none
      | (ds, t2) => some (e :: (signed.1 ++ ds), t2)
    else some ([], e :: t)

/-- Parse a JSON number `-?(0|[1-9][0-9]*)(\.d+)?([eE][+-]?d+)?`,
returning its lexeme and the rest of the input. -/
def parseNumber (cs : List Char) : Option (List Char × List Char) :=
  let signed : List Char × List Char :=
    match cs with
    | '-' :: t => (['-'], t)
    | t => ([], t)
  match signed.2 with
  | [] => none
  | c :: t =>
    if c = '0' then
      match parseFrac t with
      | none => none
      | some (fr, t2) =>
        match parseExp t2 with
        | none => none
        | some (ex, t3) => some (signed.1 ++ c :: (fr ++ ex), t3)
    else if '1' ≤ c ∧ c ≤ '9' then
      let digits := takeDigits t
      match parseFrac digits.2 with
      | none => none
      | some (fr, t2) =>
        match parseExp t2 with
        | none => none
        | some (ex, t3) => some (signed.1 ++ c :: (digits.1 ++ fr ++ ex), t3)
    else none

mutual

/-- Parse one JSON value (fuel-bounded recursive descent mirroring the
ECMA-404 grammar accepted by `JSON.parse`). -/
def parseValue : Nat → List Char → Option (Json × List Char)
  | 0, _ => none
  | fuel + 1, cs =>
    match skipWs cs with
    | [] => none
    | c :: t =>
      if c = '{' then parseObjRest fuel t
      else if c = '[' then parseArrRest fuel t
      else if c = '"' then
        match parseJsonString (t.length + 1) t with
        | some (out, rem) => some (.str (String.mk out), rem)
        | none => none
      else if c = 't' then
        match t with
        | 'r' :: 'u' :: 'e' :: r => some (.bool true, r)
        | _ => none
      else if c = 'f' then
        match t with
        | 'a' :: 'l' :: 's' :: 'e' :: r => some (.bool false, r)
        | _ => none
      else if c = 'n' then
        match t with
        | 'u' :: 'l' :: 'l' :: r => some (.null, r)
        | _ => none
      else if c = '-' ∨ ('0' ≤ c ∧ c ≤ '9') then
        match parseNumber (c :: t) with
        | some (lex, rem) => some (.num (String.mk lex), rem)
        | none => none
      else none

/-- Parse the remainder of an array after its `[`. -/
def parseArrRest : Nat → List Char → Option (Json × List Char)
  | 0, _ => none
  | fuel + 1, cs =>
    match skipWs cs with
    | ']' :: r => some (.arr [], r)
    | cs1 =>
      match parseValue fuel cs1 with
      | none => none
      | some (v, rem) => parseArrTail fuel [v] rem

/-- Parse `, value`* `]` after the first array element. -/
def parseArrTail : Nat → List Json → List Char → Option (Json × List Char)
  | 0, _, _ => none
  | fuel + 1, acc, cs =>
    match skipWs cs with
    | ',' :: r =>
      match parseValue fuel r with
      | none => none
      | some (v, rem) => parseArrTail fuel (acc ++ [v]) rem
    | ']' :: r => some (.arr acc, r)
    | _ => none

/-- Parse the remainder of an object after its `{`. -/
def parseObjRest : Nat → List Char → Option (Json × List Char)
  | 0, _ => none
  | fuel + 1, cs =>
    match skipWs cs with
    | '}' :: r => some (.obj [], r)
    | cs1 =>
      match parseMember fuel cs1 with
      | none => none
      | some (kv, rem) => parseObjTail fuel [kv] rem

/-- Parse `, member`* `}` after the first object member. -/
def parseObjTail : Nat → List (String × Json) → List Char →
    Option (Json × List Char)
  | 0, _, _ => none
  | fuel + 1, acc, cs =>
    match skipWs cs with
    | ',' :: r =>
      match parseMember fuel r with
      | none => none
      | some (kv, rem) => parseObjTail fuel (acc ++ [kv]) rem
    | '}' :: r => some (.obj acc, r)
    | _ => none

/-- Parse one `"key": value` member. -/
def parseMember : Nat → List Char → Option ((String × Json) × List Char)
  | 0, _ => none
  | fuel + 1, cs =>
    match skipWs cs with
    | '"' :: t =>
      match parseJsonString (t.length + 1) t with
      | none => none
      | some (key, rem) =>
        match skipWs rem with
        | ':' :: rem2 =>
          match parseValue fuel rem2 with
          | none => none
          | some (v, rem3) => some ((String.mk key, v), rem3)
        | _ => none
    | _ => none

end

/-- `JSON.parse`: one JSON text surrounded by nothing but whitespace;
trailing non-whitespace makes the whole parse fail. The fuel exceeds
any possible chain of recursive calls on the input. -/
def jsonParse (s : String) : Option Json :=
  match parseValue (2 * s.data.length + 2) s.data with
  | some (v, rest) => if skipWs rest = [] then some v else none
  | none => none

/-- The regex match `aiContent.match(/\{[\s\S]*\}/)`: the leftmost
possible start is the first `{`, and the greedy `[\s\S]*` extends the
match to the last `}` of the whole reply, provided that `}` lies after
the `{`. Everything before the first `{` and after the last `}` is
discarded. -/
def extractBraced (cs : List Char) : Option (List Char) :=
  let fromBrace := cs.dropWhile fun c => !(c == '{')
  let upToClose := (fromBrace.reverse.dropWhile fun c => !(c == '}')).reverse
  if upToClose.isEmpty then none else some upToClose

/-- The fallback parse result
`{ answer: aiContent, relevantIds: [] }`. -/
def fallbackParsed (content : String) : Json :=
  .obj [("answer", .str content), ("relevantIds", .arr [])]

/-- Parse the model's reply: extract the first brace-delimited
substring and `JSON.parse` it; on no match or a parse error fall back
to the whole reply as the answer with no ids. -/
def parseAiReply (content : String) : Json :=
  match extractBraced content.data with
  | some sub =>
    match jsonParse (String.mk sub) with
    | some v => v
    | none => fallbackParsed content
  | none => fallbackParsed content

/-- JS property access on the parsed value: a key of an object yields
its last binding (`JSON.parse` keeps the last duplicate key); a
missing key, or a non-object value, yields `undefined` (`none`). -/
def jsGet (v : Json) (k : String) : Option Json :=
  match v with
  | .obj members => ((members.filter fun kv => kv.1 == k).getLast?).map fun kv => kv.2
  | _ => none

/-- Whether `needle` begins `hay`. -/
def startsWithChars : List Char → List Char → Bool
  | [], _ => true
  | _ :: _, [] => false
  | a :: as, b :: bs => a == b && startsWithChars as bs

/-- `String.prototype.includes`: `needle` occurs as a contiguous
substring of `hay`. -/
def hasSubstring (hay needle : List Char) : Bool :=
  startsWithChars needle hay ||
    match hay with
    | [] => false
    | _ :: t => hasSubstring t needle

/-- `parsedResponse.relevantIds?.includes(s.id)`: `undefined` or
`null` short-circuit the optional chain to a falsy result; an array
uses strict-equality membership; a string uses substring containment
(`String.prototype.includes`); any other value has no `includes`
method and throws a `TypeError`, which the outer catch turns into the
generic 500 response. -/
def idIncluded (ids : Option Json) (id : String) : Except Unit Bool :=
  match ids with
  | none => .ok false
  | some .null => .ok false
  | some (.arr xs) => .ok (xs.contains (.str id))
  | some (.str t) => .ok (hasSubstring t.data id.data)
  | some _ => .error ()

/-- `solutions.filter(s => parsedResponse.relevantIds?.includes(s.id))`,
propagating a `TypeError` thrown by the predicate. -/
def filterIncluded (sols : List ContentRow) (ids : Option Json) :
    Except Unit (List ContentRow) :=
  match sols with
  | [] => .ok []
  | s :: rest =>
    match idIncluded ids s.id with
    | .error e => .error e
    | .ok b =>
      match filterIncluded rest ids with
      | .error e => .error e
      | .ok l => .ok (if b then s :: l else l)

/-- The outcome of one ai-search request, with the HTTP status the
function attaches to it. -/
inductive AiResult where
  | success (answer : Option Json) (relevantSolutions : List ContentRow)
  | rateLimited
  | quotaExhausted
  | serverError (msg : String)

/-- HTTP status of each ai-search outcome (200, 429 "Rate limit
exceeded", 402 "AI credits exhausted", 500). -/
def AiResult.status : AiResult → Nat
  | .success _ _ => 200
  | .rateLimited => 429
  | .quotaExhausted => 402
  | .serverError _ => 500

/-- The fixed answer returned when the solutions select comes back
empty, before any upstream call. -/
def noSolutionsAnswer : String :=
  "No solutions have been added to the knowledge base yet. Add some solutions first to enable AI-powered search."

/-- The environment of one ai-search request: whether the API key is
configured, whether the solutions select succeeds, and the status and
extracted `choices[0].message.content` (`?? ""`) of the single
upstream gateway response. Prompt construction only shapes the
upstream request, which this environment abstracts. -/
structure AiEnv where
  hasApiKey : Bool
  dbOk : Bool
  upstreamStatus : Nat
  upstreamContent : String
deriving DecidableEq, Repr

/-- The ai-search request handler. The second component counts
upstream gateway calls issued (the handler contains a single `fetch`
and no retry). `response.ok` is status 200–299. -/
def aiSearch (env : AiEnv) (db : Db) (query : String) : AiResult × Nat :=
  if !env.hasApiKey then (.serverError "LOVABLE_API_KEY is not configured", 0)
  else if !env.dbOk then (.serverError "Failed to fetch solutions", 0)
  else if db.solutions.isEmpty then
    (.success (some (.str noSolutionsAnswer)) [], 0)
  else if !(200 ≤ env.upstreamStatus && env.upstreamStatus ≤ 299) then
    if env.upstreamStatus == 429 then (.rateLimited, 1)
    else if env.upstreamStatus == 402 then (.quotaExhausted, 1)
    else (.serverError "AI gateway error", 1)
  else
    let parsed := parseAiReply env.upstreamContent
    match filterIncluded db.solutions (jsGet parsed "relevantIds") with
    | .error _ => (.serverError "Unknown error", 1)
    | .ok rel => (.success (jsGet parsed "answer") rel, 1)

/-- A non-empty select result is not `isEmpty`. -/
theorem isEmpty_false_of_ne_nil {α : Type} {l : List α} (h : l ≠ []) :
    l.isEmpty = false := by
  cases l with
  | nil => exact absurd rfl h
  | cons a t => rfl

/-- **C7.** With the API key configured and the select succeeding, an
empty knowledge base — zero rows in all three content tables — makes
the handler return the fixed no-content answer and an empty
relevantSolutions list with status 200, for any query text, and issue
zero upstream model calls. -/
theorem ai_empty_kb_fixed_answer (env : AiEnv) (db : Db) (query : String)
    (hkey : env.hasApiKey = true) (hdb : env.dbOk = true)
    (hs : db.solutions = []) (hg : db.installation_guides = [])
    (hu : db.upgrades = []) :
    aiSearch env db query = (.success (some (.str noSolutionsAnswer)) [], 0) ∧
    (AiResult.success (some (.str noSolutionsAnswer)) []).status = 200 := by
  refine ⟨?_, rfl⟩
  have hge : db.installation_guides = [] := hg
  have hue : db.upgrades = [] := hu
  simp [aiSearch, hkey, hdb, hs]

/-- Witness for `ai_empty_kb_fixed_answer` on a fully empty database. -/
theorem ai_empty_kb_fixed_answer_witness :
    aiSearch ⟨true, true, 200, "irrelevant"⟩ ⟨[], [], [], [], [], []⟩ "any query" =
      (.success (some (.str noSolutionsAnswer)) [], 0) :=
  (ai_empty_kb_fixed_answer ⟨true, true, 200, "irrelevant"⟩ ⟨[], [], [], [], [], []⟩
    "any query" rfl rfl rfl rfl rfl).1

/-- **C8.** With a non-empty solutions list the handler issues exactly
one upstream call and classifies its status: 429 becomes the
rate-limited result (HTTP 429), 402 the quota-exhausted result
(HTTP 402), and any other non-2xx status the generic gateway failure
(HTTP 500); the call counter is 1 in each case — no retry. -/
theorem ai_upstream_status_classification (env : AiEnv) (db : Db)
    (query : String)
    (hkey : env.hasApiKey = true) (hdb : env.dbOk = true)
    (hs : db.solutions ≠ []) :
    (env.upstreamStatus = 429 →
      aiSearch env db query = (.rateLimited, 1) ∧
      AiResult.rateLimited.status = 429)
    ∧ (env.upstreamStatus = 402 →
      aiSearch env db query = (.quotaExhausted, 1) ∧
      AiResult.quotaExhausted.status = 402)
    ∧ (¬(200 ≤ env.upstreamStatus ∧ env.upstreamStatus ≤ 299) →
      env.upstreamStatus ≠ 429 → env.upstreamStatus ≠ 402 →
      aiSearch env db query = (.serverError "AI gateway error", 1) ∧
      (AiResult.serverError "AI gateway error").status = 500) := by
  have hse : db.solutions.isEmpty = false := isEmpty_false_of_ne_nil hs
  refine ⟨?_, ?_, ?_⟩
  · intro h
    exact ⟨by simp [aiSearch, hkey, hdb, hse, h], rfl⟩
  · intro h
    exact ⟨by simp [aiSearch, hkey, hdb, hse, h], rfl⟩
  · intro hnot h429 h402
    have hb : (decide (200 ≤ env.upstreamStatus) &&
        decide (env.upstreamStatus ≤ 299)) = false := by
      by_cases h1 : 200 ≤ env.upstreamStatus
      · have h2 : ¬ env.upstreamStatus ≤ 299 := fun h2 => hnot ⟨h1, h2⟩
        simp [h1, h2]
      · simp [h1]
    refine ⟨?_, rfl⟩
    simp [aiSearch, hkey, hdb, hse, hb, h429, h402]

/-- Witness for `ai_upstream_status_classification` at statuses 429,
402 and 503 with one solution row. -/
theorem ai_upstream_status_classification_witness :
    aiSearch ⟨true, true, 429, "x"⟩ dbApproved "q" = (.rateLimited, 1) ∧
    aiSearch ⟨true, true, 402, "x"⟩ dbApproved "q" = (.quotaExhausted, 1) ∧
    aiSearch ⟨true, true, 503, "x"⟩ dbApproved "q" =
      (.serverError "AI gateway error", 1) :=
  ⟨((ai_upstream_status_classification ⟨true, true, 429, "x"⟩ dbApproved "q"
      rfl rfl (by decide)).1 rfl).1,
   ((ai_upstream_status_classification ⟨true, true, 402, "x"⟩ dbApproved "q"
      rfl rfl (by decide)).2.1 rfl).1,
   ((ai_upstream_status_classification ⟨true, true, 503, "x"⟩ dbApproved "q"
      rfl rfl (by decide)).2.2 (by decide) (by decide) (by decide)).1⟩

/-- When the brace extraction finds nothing, or the extracted
substring is not valid JSON, the parse result is the fallback object. -/
theorem parseAiReply_fallback (content : String)
    (hbad : ∀ sub, extractBraced content.data = some sub →
      jsonParse (String.mk sub) = none) :
    parseAiReply content = fallbackParsed content := by
  unfold parseAiReply
  cases he : extractBraced content.data with
  | none => rfl
  | some sub =>
    show (match jsonParse (String.mk sub) with
      | some v => v
      | none => fallbackParsed content) = fallbackParsed content
    rw [hbad sub he]

/-- An empty relevantIds array selects no rows. -/
theorem filterIncluded_arrNil (sols : List ContentRow) :
    filterIncluded sols (some (.arr [])) = .ok [] := by
  induction sols with
  | nil => rfl
  | cons s rest ih => simp [filterIncluded, idIncluded, ih]

/-- **C6.** With a non-empty solutions list and a 2xx upstream
response whose reply is not JSON-parseable via the brace-substring
extraction, the handler still succeeds (HTTP 200): the answer is the
raw reply text verbatim and relevantSolutions is empty. -/
theorem ai_unparseable_reply_fallback (env : AiEnv) (db : Db)
    (query : String)
    (hkey : env.hasApiKey = true) (hdb : env.dbOk = true)
    (hs : db.solutions ≠ [])
    (h200 : 200 ≤ env.upstreamStatus) (h299 : env.upstreamStatus ≤ 299)
    (hbad : ∀ sub, extractBraced env.upstreamContent.data = some sub →
      jsonParse (String.mk sub) = none) :
    aiSearch env db query =
      (.success (some (.str env.upstreamContent)) [], 1) ∧
    (AiResult.success (some (.str env.upstreamContent)) []).status = 200 := by
  have hse : db.solutions.isEmpty = false := isEmpty_false_of_ne_nil hs
  refine ⟨?_, rfl⟩
  have hparse := parseAiReply_fallback env.upstreamContent hbad
  have hids : jsGet (fallbackParsed env.upstreamContent) "relevantIds" =
      some (.arr []) := rfl
  have hans : jsGet (fallbackParsed env.upstreamContent) "answer" =
      some (.str env.upstreamContent) := rfl
  simp [aiSearch, hkey, hdb, hse, h200, h299, hparse, hids, hans,
    filterIncluded_arrNil]

/-- Witness for `ai_unparseable_reply_fallback`: a plain-prose reply
with no brace match. -/
theorem ai_unparseable_reply_fallback_witness :
    aiSearch ⟨true, true, 200, "Sorry, I cannot help with that."⟩ dbApproved "q" =
      (.success (some (.str "Sorry, I cannot help with that.")) [], 1) :=
  (ai_unparseable_reply_fallback ⟨true, true, 200, "Sorry, I cannot help with that."⟩
    dbApproved "q" rfl rfl (by decide) (by decide) (by decide)
    (fun sub hsub => by simp [show extractBraced
      "Sorry, I cannot help with that.".data = none from rfl] at hsub)).1

/-- The literal JSON object of the claim:
`{"answer":"X","relevantIds":["a","b"]}`. -/
def c5Json : String :=
  "\x7b\"answer\":\"X\",\"relevantIds\":[\"a\",\"b\"]\x7d"

/-- The JS value `JSON.parse` produces from `c5Json`. -/
def c5Val : Json :=
  .obj [("answer", .str "X"), ("relevantIds", .arr [.str "a", .str "b"])]

/-- Solution rows with ids "a", "b", "c" for the reference-resolution
claims. -/
def rowA : ContentRow := ⟨"a", "ta", "da", none, none, none⟩

/-- Second sample solution row. -/
def rowB : ContentRow := ⟨"b", "tb", "db", none, none, none⟩

/-- Third sample solution row, never referenced by the reply. -/
def rowC : ContentRow := ⟨"c", "tc", "dc", none, none, none⟩

/-- A database whose solutions table holds `rowA`, `rowB`, `rowC`. -/
def dbAi : Db := ⟨[], [], [rowA, rowB, rowC], [], [], []⟩

/-- A model reply that contains `c5Json` embedded in surrounding
prose, where the prose itself ends with a `}`. -/
def c5BadReply : String := c5Json ++ " fin\x7d"

/-- **C5, counterexample.** The regex `/\{[\s\S]*\}/` is greedy: it
matches from the first `{` to the last `}` of the whole reply, not the
first brace-delimited JSON substring. On the reply
`{"answer":"X","relevantIds":["a","b"]} fin}` — the claim's JSON
object embedded in prose whose tail contains a `}` — the extracted
text is the whole reply, `JSON.parse` fails on it, and the handler
falls back to the raw reply: the answer is not "X" and
relevantSolutions is empty rather than the rows with ids "a", "b". -/
theorem ai_embedded_json_counterexample :
    aiSearch ⟨true, true, 200, c5BadReply⟩ dbAi "q" =
      (.success (some (.str c5BadReply)) [], 1) ∧
    Json.str c5BadReply ≠ Json.str "X" ∧
    ([] : List ContentRow) ≠ [rowA, rowB] := by
  refine ⟨rfl, ?_, by decide⟩
  intro h
  have : c5BadReply = "X" := Json.str.inj h
  exact absurd this (by decide)

/-- Dropping over an all-satisfying prefix continues in the tail. -/
theorem dropWhile_append_of_forall {α : Type} {p : α → Bool}
    {l1 l2 : List α} (h : ∀ c ∈ l1, p c = true) :
    (l1 ++ l2).dropWhile p = l2.dropWhile p := by
  induction l1 with
  | nil => rfl
  | cons a t ih =>
    have ha := h a (by simp)
    simp only [List.cons_append, List.dropWhile_cons, ha, if_true]
    exact ih fun c hc => h c (by simp [hc])

/-- Dropping stops at a head that fails the predicate. -/
theorem dropWhile_cons_false {α : Type} {p : α → Bool} {a : α}
    {l : List α} (h : p a = false) : (a :: l).dropWhile p = a :: l := by
  simp [List.dropWhile_cons, h]

/-- When the prose before the object contains no `{` and the prose
after it contains no `}`, the greedy brace match extracts exactly the
object. -/
theorem extractBraced_embedded (pre post : List Char)
    (hpre : ∀ c ∈ pre, (c == '{') = false)
    (hpost : ∀ c ∈ post, (c == '}') = false) :
    extractBraced (pre ++ c5Json.data ++ post) = some c5Json.data := by
  unfold extractBraced
  have h1 : (pre ++ c5Json.data ++ post).dropWhile (fun c => !(c == '{')) =
      c5Json.data ++ post := by
    rw [List.append_assoc,
      dropWhile_append_of_forall (fun c hc => by simp [hpre c hc])]
    have hJ : c5Json.data ++ post = '{' :: (c5Json.data.tail ++ post) := rfl
    rw [hJ, dropWhile_cons_false (by decide)]
  have h2 : (c5Json.data ++ post).reverse.dropWhile (fun c => !(c == '}')) =
      c5Json.data.reverse := by
    rw [List.reverse_append,
      dropWhile_append_of_forall (fun c hc => by
        simp [hpost c (List.mem_reverse.mp hc)])]
    have hJ : c5Json.data.reverse = '}' :: c5Json.data.reverse.tail := by decide
    rw [hJ, dropWhile_cons_false (by decide)]
  simp only [h1, h2, List.reverse_reverse]
  rfl

/-- On a reply of the form `pre ++ c5Json ++ post` with brace-free
surrounding prose, the parse result is the claim's JS object. -/
theorem parseAiReply_embedded (pre post : String)
    (hpre : ∀ c ∈ pre.data, (c == '{') = false)
    (hpost : ∀ c ∈ post.data, (c == '}') = false) :
    parseAiReply (pre ++ c5Json ++ post) = c5Val := by
  unfold parseAiReply
  rw [show (pre ++ c5Json ++ post).data = pre.data ++ c5Json.data ++ post.data
      by simp [String.data_append]]
  rw [extractBraced_embedded pre.data post.data hpre hpost]
  show (match jsonParse (String.mk c5Json.data) with
    | some v => v
    | none => fallbackParsed (pre ++ c5Json ++ post)) = c5Val
  rw [show jsonParse (String.mk c5Json.data) = some c5Val from rfl]

/-- `relevantIds?.includes(s.id)` for the two-element array
`["a","b"]` is exact string membership. -/
theorem idIncluded_c5 (id : String) :
    idIncluded (some (.arr [.str "a", .str "b"])) id =
      .ok (id == "a" || id == "b") := by
  by_cases h1 : id = "a"
  · subst h1; rfl
  · by_cases h2 : id = "b"
    · subst h2
      have e1 : ("b" == "a") = false := by decide
      simp only [idIncluded, e1]
      rfl
    · have e1 : (id == "a") = false := by simp [h1]
      have e2 : (id == "b") = false := by simp [h2]
      simp only [idIncluded, List.contains_eq_any_beq, List.any_cons,
        List.any_nil, Bool.or_false]
      show Except.ok ((id == "a") || (id == "b")) = Except.ok (id == "a" || id == "b")
      rfl

/-- Resolving `["a","b"]` against a fetched solutions list keeps
exactly the rows whose id is "a" or "b". -/
theorem filterIncluded_c5 (sols : List ContentRow) :
    filterIncluded sols (some (.arr [.str "a", .str "b"])) =
      .ok (sols.filter fun s => s.id == "a" || s.id == "b") := by
  induction sols with
  | nil => rfl
  | cons s rest ih =>
    simp only [filterIncluded, idIncluded_c5, ih, List.filter_cons]

/-- **C5, amended.** For a 2xx model reply of the form
`pre ++ {"answer":"X","relevantIds":["a","b"]} ++ post` where the
leading prose contains no `{` and the trailing prose contains no `}`
(the greedy match spans from the first `{` to the last `}` of the
whole reply, so other prose would capture more than the object), the
returned answer is "X" and relevantSolutions is exactly the fetched
rows whose id is "a" or "b", by case-sensitive exact match, ids
without a fetched row silently dropped. -/
theorem ai_embedded_json_resolution (env : AiEnv) (db : Db)
    (query pre post : String)
    (hkey : env.hasApiKey = true) (hdb : env.dbOk = true)
    (hs : db.solutions ≠ [])
    (h200 : 200 ≤ env.upstreamStatus) (h299 : env.upstreamStatus ≤ 299)
    (hcontent : env.upstreamContent = pre ++ c5Json ++ post)
    (hpre : ∀ c ∈ pre.data, (c == '{') = false)
    (hpost : ∀ c ∈ post.data, (c == '}') = false) :
    aiSearch env db query =
      (.success (some (.str "X"))
        (db.solutions.filter fun s => s.id == "a" || s.id == "b"), 1) := by
  have hse : db.solutions.isEmpty = false := isEmpty_false_of_ne_nil hs
  have hparse : parseAiReply env.upstreamContent = c5Val := by
    rw [hcontent]; exact parseAiReply_embedded pre post hpre hpost
  have hids : jsGet c5Val "relevantIds" = some (.arr [.str "a", .str "b"]) := rfl
  have hans : jsGet c5Val "answer" = some (.str "X") := rfl
  simp [aiSearch, hkey, hdb, hse, h200, h299, hparse, hids, hans,
    filterIncluded_c5]

/-- Witness for `ai_embedded_json_resolution`: brace-free prose around
the object over the three-row solutions list; rows "a" and "b" are
returned, "c" is not, and the unmatched id situation is covered by
"b" when the table lacks it — here all referenced ids exist. -/
theorem ai_embedded_json_resolution_witness :
    aiSearch ⟨true, true, 200, "I found it: " ++ c5Json ++ " Hope this helps."⟩
        dbAi "q" =
      (.success (some (.str "X"))
        (dbAi.solutions.filter fun s => s.id == "a" || s.id == "b"), 1) :=
  ai_embedded_json_resolution
    ⟨true, true, 200, "I found it: " ++ c5Json ++ " Hope this helps."⟩
    dbAi "q" "I found it: " " Hope this helps."
    rfl rfl (by decide) (by decide) (by decide) rfl
    (by decide) (by decide)

/-- `handleRegister` (Auth page): after `signUp`, insert a profile
with `status: 'pending'` and `display_name: registerName ||
registerEmail`, then insert a `'user'` role row. `pid` stands for the
fresh `gen_random_uuid()` primary key of the new profile row. -/
def handleRegister (db : Db) (pid uid : Nat) (email name : String) : Db :=
  { db with
    profiles := db.profiles ++
      [⟨pid, uid, email, if name == "" then email else name, .pending⟩]
    user_roles := db.user_roles ++ [⟨uid, .user⟩] }

/-- `handleApproveUser` (Admin page):
`update profiles set status = 'approved' where id = pid`. -/
def handleApproveUser (db : Db) (pid : Nat) : Db :=
  { db with profiles := db.profiles.map fun p =>
      if p.id == pid then { p with status := .approved } else p }

/-- `handleRejectUser` (Admin page):
`update profiles set status = 'rejected' where id = pid`. -/
def handleRejectUser (db : Db) (pid : Nat) : Db :=
  { db with profiles := db.profiles.map fun p =>
      if p.id == pid then { p with status := .rejected } else p }

/-- The Admin page renders the Approve button only inside
`pendingUsers.map(...)`, so the approve operation triggers only for a
profile currently listed as pending. -/
def panelApprove (db : Db) (pid : Nat) : Db :=
  if db.profiles.any (fun p => p.id == pid && p.status == .pending) then
    handleApproveUser db pid
  else db

/-- The Reject button likewise only appears on the pending list. -/
def panelReject (db : Db) (pid : Nat) : Db :=
  if db.profiles.any (fun p => p.id == pid && p.status == .pending) then
    handleRejectUser db pid
  else db

/-- `handleDeleteUser` (Admin page):
`delete from profiles where id = pid`. -/
def handleDeleteUser (db : Db) (pid : Nat) : Db :=
  { db with profiles := db.profiles.filter fun p => !(p.id == pid) }

/-- The operations that touch profile rows: registration and the
admin panel's approve, reject and delete. -/
inductive AccountOp where
  | register (pid uid : Nat) (email name : String)
  | approve (pid : Nat)
  | reject (pid : Nat)
  | remove (pid : Nat)
deriving DecidableEq, Repr

/-- Apply one account operation. -/
def applyAccountOp (db : Db) : AccountOp → Db
  | .register pid uid email name => handleRegister db pid uid email name
  | .approve pid => panelApprove db pid
  | .reject pid => panelReject db pid
  | .remove pid => handleDeleteUser db pid

/-- Freshness of `gen_random_uuid()`: a registration's new profile id
does not collide with an existing row. -/
def opWf (db : Db) : AccountOp → Prop
  | .register pid _ _ _ => ∀ p ∈ db.profiles, p.id ≠ pid
  | _ => True

/-- Primary-key uniqueness makes profile rows determined by their id. -/
theorem profile_inj {profiles : List Profile}
    (hids : (profiles.map fun p => p.id).Nodup)
    {p q : Profile} (hp : p ∈ profiles) (hq : q ∈ profiles)
    (h : p.id = q.id) : p = q :=
  List.inj_on_of_nodup_map hids hp hq h

/-- Effect of a status-update statement on a member of the mapped
profiles list: either the row is untouched, or it is the addressed row
with the new status. -/
theorem mem_map_status_update {profiles : List Profile} {pid : Nat}
    {st : ProfileStatus}
    (hids : (profiles.map fun p => p.id).Nodup)
    {p q : Profile} (hp : p ∈ profiles)
    (hq : q ∈ profiles.map fun r =>
      if r.id == pid then { r with status := st } else r)
    (hid : p.id = q.id) :
    q = p ∨ (q = { p with status := st } ∧ p.id = pid) := by
  obtain ⟨x, hx, hxq⟩ := List.mem_map.mp hq
  by_cases hxp : (x.id == pid) = true
  · right
    rw [if_pos hxp] at hxq
    have hqid : q.id = x.id := by rw [← hxq]
    have hpx : p = x := profile_inj hids hp hx (hid.trans hqid)
    subst hpx
    exact ⟨hxq.symm, by simpa using hxp⟩
  · left
    rw [if_neg hxp] at hxq
    subst hxq
    exact (profile_inj hids hp hx hid).symm

/-- **C9.** Registration appends exactly a pending profile plus a
`'user'` role row; and under primary-key uniqueness and uuid
freshness, the only status change any account operation performs on an
existing profile row is pending → approved or pending → rejected — in
particular no operation ever sets an existing profile's status back to
pending. -/
theorem registration_pending_and_one_way_transitions (db : Db)
    (op : AccountOp)
    (hids : (db.profiles.map fun p => p.id).Nodup)
    (hwf : opWf db op) :
    (∀ pid uid email name, op = .register pid uid email name →
      (applyAccountOp db op).profiles = db.profiles ++
        [⟨pid, uid, email, if name == "" then email else name, .pending⟩] ∧
      (applyAccountOp db op).user_roles = db.user_roles ++ [⟨uid, .user⟩])
    ∧ (∀ p ∈ db.profiles, ∀ q ∈ (applyAccountOp db op).profiles,
      p.id = q.id →
      q.status = p.status ∨
        (p.status = .pending ∧
          (q.status = .approved ∨ q.status = .rejected)))
    ∧ (∀ p ∈ db.profiles, ∀ q ∈ (applyAccountOp db op).profiles,
      p.id = q.id → q.status = .pending → p.status = .pending) := by
  have htrans : ∀ p ∈ db.profiles, ∀ q ∈ (applyAccountOp db op).profiles,
      p.id = q.id →
      q.status = p.status ∨
        (p.status = .pending ∧
          (q.status = .approved ∨ q.status = .rejected)) := by
    intro p hp q hq hid
    cases op with
    | register pid uid email name =>
      simp only [applyAccountOp, handleRegister, List.mem_append,
        List.mem_singleton] at hq
      rcases hq with hq | hq
      · exact Or.inl (congrArg Profile.status (profile_inj hids hp hq hid)).symm
      · exfalso
        have : q.id = pid := by rw [hq]
        exact hwf p hp (hid.trans this)
    | approve pid =>
      simp only [applyAccountOp, panelApprove] at hq
      by_cases hg : db.profiles.any
          (fun p => p.id == pid && p.status == .pending) = true
      · rw [if_pos hg] at hq
        simp only [handleApproveUser] at hq
        rcases mem_map_status_update hids hp hq hid with hqp | ⟨hqp, hpid⟩
        · exact Or.inl (by rw [hqp])
        · obtain ⟨w, hw, hwP⟩ := List.any_eq_true.mp hg
          simp only [Bool.and_eq_true, beq_iff_eq] at hwP
          have hwp : w = p := profile_inj hids hw hp (hwP.1.trans hpid.symm)
          exact Or.inr ⟨by rw [← hwp]; exact hwP.2, Or.inl (by rw [hqp])⟩
      · rw [if_neg hg] at hq
        exact Or.inl (congrArg Profile.status (profile_inj hids hp hq hid)).symm
    | reject pid =>
      simp only [applyAccountOp, panelReject] at hq
      by_cases hg : db.profiles.any
          (fun p => p.id == pid && p.status == .pending) = true
      · rw [if_pos hg] at hq
        simp only [handleRejectUser] at hq
        rcases mem_map_status_update hids hp hq hid with hqp | ⟨hqp, hpid⟩
        · exact Or.inl (by rw [hqp])
        · obtain ⟨w, hw, hwP⟩ := List.any_eq_true.mp hg
          simp only [Bool.and_eq_true, beq_iff_eq] at hwP
          have hwp : w = p := profile_inj hids hw hp (hwP.1.trans hpid.symm)
          exact Or.inr ⟨by rw [← hwp]; exact hwP.2, Or.inr (by rw [hqp])⟩
      · rw [if_neg hg] at hq
        exact Or.inl (congrArg Profile.status (profile_inj hids hp hq hid)).symm
    | remove pid =>
      simp only [applyAccountOp, handleDeleteUser] at hq
      have hq2 : q ∈ db.profiles := List.mem_of_mem_filter hq
      exact Or.inl (congrArg Profile.status (profile_inj hids hp hq2 hid)).symm
  refine ⟨?_, htrans, ?_⟩
  · intro pid uid email name hop
    subst hop
    exact ⟨rfl, rfl⟩
  · intro p hp q hq hid hqpend
    rcases htrans p hp q hq hid with h | ⟨hppend, _⟩
    · rw [← h, hqpend]
    · exact hppend

/-- Witness for `registration_pending_and_one_way_transitions`:
registering user 20 on `dbPending` appends the pending profile and the
user role row; approving profile 1 moves the pending row of user 10 to
approved, a transition the theorem classifies as pending → approved. -/
theorem registration_pending_and_one_way_transitions_witness :
    ((applyAccountOp dbPending (.register 2 20 "n@x.test" "n")).profiles =
      dbPending.profiles ++ [⟨2, 20, "n@x.test", "n", .pending⟩] ∧
     (applyAccountOp dbPending (.register 2 20 "n@x.test" "n")).user_roles =
      dbPending.user_roles ++ [⟨20, .user⟩]) ∧
    (ProfileStatus.approved = ProfileStatus.pending ∨
      (ProfileStatus.pending = ProfileStatus.pending ∧
        (ProfileStatus.approved = ProfileStatus.approved ∨
          ProfileStatus.approved = ProfileStatus.rejected))) := by
  constructor
  · have h := (registration_pending_and_one_way_transitions dbPending
      (.register 2 20 "n@x.test" "n") (by decide) (by simp [opWf, dbPending])).1
      2 20 "n@x.test" "n" rfl
    simpa using h
  · have h := (registration_pending_and_one_way_transitions dbPending
      (.approve 1) (by decide) trivial).2.1
      ⟨1, 10, "u@x.test", "u", .pending⟩ (by decide)
      ⟨1, 10, "u@x.test", "u", .approved⟩ (by decide) rfl
    exact h

end InsightVault
